import Mathlib

/-!
Verification of the `chain` HTTP middleware router (Go).

The development shallowly embeds the two subsystems of the repository:

* the scope / middleware composition model of `chain.go`
  (`Mux`, `Use`, `Group`, `Route`, `Handle`, `prefixPattern`, `wrap`), and
* the response interception state machine of `response_writer.go`
  (`responseWriter` with `WriteHeader`, `Write`, `handleInterception`,
  `Status`, `Size`, `Written`, and the capability delegation methods
  `Flush`, `Hijack`, `Push`).

Pure data is embedded directly; the mutable per-request writer is embedded as
explicit state passing over a `RW` record; handlers (Go `http.Handler` values
invoked with the wrapped writer) are embedded as programs over the writer API
(`HOp` lists), which is how every handler in the repository interacts with the
wrapper.  HTTP status codes are plain naturals (`http.StatusOK = 200`,
`http.StatusNotFound = 404`, `http.StatusMethodNotAllowed = 405`).
-/

/-! ### Middleware composition (chain.go)

Events let us observe the call order of a composed chain: middleware `i`
contributes a `before i` event on the way in and an `after i` event on the way
out; the leaf handler contributes whatever trace it has.  A Go middleware
`func(http.Handler) http.Handler` becomes a function on traces. -/

/-- Observable events of one request's execution through a middleware chain. -/
inductive Ev where
  | before (i : Nat)
  | after (i : Nat)
  deriving DecidableEq, Repr

/-- The trace a handler produces when run (the leaf handler of a route is just
its own trace). -/
abbrev TraceH := List Ev

/-- A middleware as a trace transformer: `func(next http.Handler) http.Handler`. -/
abbrev TraceMw := TraceH → TraceH

/-- The canonical instrumented middleware with identity `i`: it emits
`before i`, runs the inner handler, then emits `after i`.  This is the shape of
every "logging"-style middleware used to observe ordering. -/
def instr (i : Nat) : TraceMw :=
  fun h => Ev.before i :: h ++ [Ev.after i]

/-- Embeds the composition loop of `Mux.wrap` (chain.go lines 154-174): iterate
the chain from last to first, each step setting `handler = middlewares[i](handler)`.
(The writer-wrapping closure that `wrap` finally returns invokes the composed
handler unchanged, so it contributes no events to the trace.) -/
def wrap : List TraceMw → TraceH → TraceH
  | [], h => h
  | mw :: rest, h => mw (wrap rest h)

/-! ### Mux scopes (chain.go)

Middleware values are identified by abstract ids (`Nat`); a scope holds the id
list in registration order.  A `Handle` registration snapshots the scope's
current chain together with the prefixed pattern into the shared router table,
which is what `m.router.Handle(m.prefixPattern(pattern), m.wrap(handler))`
does. -/

/-- Writer-API operations a handler can perform; a handler is a list of these.
`setHeader` models `w.Header().Set(k, v)` on the underlying sink. -/
inductive HOp where
  | writeHeader (status : Nat)
  | write (b : List Nat)
  | setHeader (k v : String)
  deriving DecidableEq, Repr

/-- A handler program over the wrapped writer. -/
abbrev Handler := List HOp

/-- Embeds the `Mux` struct of chain.go (lines 23-29).  The shared
`*http.ServeMux` router is threaded separately as a `Router` value; `pfx`
embeds the `prefix` field. -/
structure MuxM where
  middlewares : List Nat
  pfx : String
  notFound : Option Handler
  methodNotAllowed : Option Handler

/-- Embeds `New` (chain.go lines 32-36): zero value for every field but the
router. -/
def MuxM.new : MuxM :=
  { middlewares := [], pfx := "", notFound := none, methodNotAllowed := none }

/-- Embeds `Mux.Use` (chain.go lines 55-63): appends the middleware, in
argument order, to the scope's chain. -/
def MuxM.use (m : MuxM) (mw : List Nat) : MuxM :=
  { m with middlewares := m.middlewares ++ mw }

/-- Embeds `Mux.WithNotFound` (chain.go lines 40-43). -/
def MuxM.withNotFound (m : MuxM) (h : Handler) : MuxM :=
  { m with notFound := some h }

/-- Embeds `Mux.WithMethodNotAllowed` (chain.go lines 47-50). -/
def MuxM.withMethodNotAllowed (m : MuxM) (h : Handler) : MuxM :=
  { m with methodNotAllowed := some h }

/-- Embeds the `groupMux` struct literal built by `Mux.Group` (chain.go lines
73-77): same router, a fresh copy of the parent's middleware slice, the
parent's prefix, and the remaining fields (`notFound`, `methodNotAllowed`) left
at their zero value `nil`.  `Group` passes this child to `fn` and returns the
parent unchanged. -/
def MuxM.groupChild (m : MuxM) : MuxM :=
  { middlewares := m.middlewares, pfx := m.pfx,
    notFound := none, methodNotAllowed := none }

/-- Embeds the `groupMux` struct literal built by `Mux.Route` (chain.go lines
90-94): as `groupChild`, but the child's prefix is `m.prefix + prefix`. -/
def MuxM.routeChild (m : MuxM) (p : String) : MuxM :=
  { middlewares := m.middlewares, pfx := m.pfx ++ p,
    notFound := none, methodNotAllowed := none }

/-- Embeds the loop of `Mux.prefixPattern` (chain.go lines 130-136):
`pathStart` is initialised to 0 and set to `i`, breaking, at the first `'/'`;
if the pattern has no `'/'`, it stays 0. -/
def pathStart (cs : List Char) : Nat :=
  match cs.findIdx? (fun c => c = '/') with
  | some i => i
  | none => 0

/-- Embeds `Mux.prefixPattern` (chain.go lines 124-139): if the scope's prefix
is empty the pattern is returned as is; otherwise the prefix is inserted where
the path component starts, `pattern[:pathStart] + prefix + pattern[pathStart:]`. -/
def pfxPattern (pfx : String) (pattern : String) : String :=
  if pfx = "" then pattern
  else
    let cs := pattern.toList
    let i := pathStart cs
    ((cs.take i) ++ pfx.toList ++ (cs.drop i)).asString

/-- The shared router table: each entry records the fully prefixed pattern, the
snapshot of the scope's middleware chain, and the leaf handler's id — the data
`m.router.Handle(m.prefixPattern(pattern), m.wrap(handler))` registers. -/
abbrev Router := List (String × List Nat × Nat)

/-- Embeds `Mux.Handle` / `Mux.HandleFunc` (chain.go lines 102-119): appends a
registration for the prefixed pattern, composed with the scope's current
chain, to the shared router. -/
def MuxM.handle (m : MuxM) (r : Router) (pattern : String) (hid : Nat) : Router :=
  r ++ [(pfxPattern m.pfx pattern, m.middlewares, hid)]

/-! ### Response writer state machine (response_writer.go)

The underlying `http.ResponseWriter` (the raw response sink) is modelled as a
recorder: it keeps the current header map, the list of status commits it has
been forwarded, and the body bytes it has received.  Its `Write` accepts every
byte (returning `len(b), nil`), which is the behaviour of the sinks the
repository is exercised against. -/

/-- The raw response sink (`rw.ResponseWriter`): header map, forwarded status
commits in order, and received body bytes. -/
structure Sink where
  headers : List (String × String)
  commits : List Nat
  body : List Nat
  deriving DecidableEq, Repr

/-- `w.Header().Set(k, v)` on the sink's header map: replaces any existing
entries for the key. -/
def Sink.setHdr (s : Sink) (k v : String) : Sink :=
  { s with headers := s.headers.filter (fun kv => kv.1 ≠ k) ++ [(k, v)] }

/-- Embeds the `responseWriter` struct (response_writer.go lines 12-23).
`ignoreWrites` is the suppression flag set once an interception completes.
The `req` field (the original request, passed through unchanged to the
substitute handler) has no observable content in this model. -/
structure RW where
  sink : Sink
  status : Nat
  size : Nat
  written : Bool
  notFound : Option Handler
  methodNotAllowed : Option Handler
  ignoreWrites : Bool
  deriving DecidableEq, Repr

/-- Embeds `responseWriter.Status` (response_writer.go lines 35-40): 200 OK
when no status has been recorded yet. -/
def RW.Status (rw : RW) : Nat :=
  if rw.status = 0 then 200 else rw.status

/-- Embeds `responseWriter.Size` (response_writer.go lines 43-45). -/
def RW.Size (rw : RW) : Nat :=
  rw.size

/-- Embeds `responseWriter.Written` (response_writer.go lines 48-50). -/
def RW.Written (rw : RW) : Bool :=
  rw.written

/-- The plain commit tail of `WriteHeader` (response_writer.go lines 70-72):
record the status, mark written, forward the commit to the underlying sink. -/
def RW.commitTo (rw : RW) (status : Nat) : RW :=
  { rw with status := status, written := true,
            sink := { rw.sink with commits := rw.sink.commits ++ [status] } }

/-- Embeds `responseWriter.Write` (response_writer.go lines 95-106): if
`ignoreWrites`, report `len(b)` bytes written with no error and touch nothing;
otherwise lazily mark the response written with status 200, forward the bytes
to the sink, and add the forwarded count to `size`.  Returns the new state and
the `(int, error)` pair (`none` = nil error). -/
def RW.Write (rw : RW) (b : List Nat) : RW × (Nat × Option String) :=
  if rw.ignoreWrites then (rw, (b.length, none))
  else
    let rw1 := if !rw.written then { rw with written := true, status := 200 } else rw
    let n := b.length
    ({ rw1 with sink := { rw1.sink with body := rw1.sink.body ++ b },
                size := rw1.size + n },
     (n, none))

/-- A sequence of `Write` calls, left to right, keeping only the state (used to
speak about "every subsequent write" after a suppression point). -/
def RW.writeAll (rw : RW) : List (List Nat) → RW
  | [] => rw
  | b :: bs => ((rw.Write b).1).writeAll bs

/-- `WriteHeader` specialised to a writer whose interception handlers are both
cleared (`nil`): the interception branches of response_writer.go lines 59-68
cannot fire, leaving the written-guard and the plain commit.  This is the form
of `WriteHeader` every call made from inside an interception reaches, because
`handleInterception` clears both handlers first; `WriteHeader_cleared` below
proves the agreement with the full `WriteHeader`. -/
def RW.writeHeaderCleared (rw : RW) (status : Nat) : RW :=
  if rw.written then rw else rw.commitTo status

/-- One writer-API step of a handler running against the wrapped writer
(inside an interception, where both handlers are cleared). -/
def RW.runOp (rw : RW) : HOp → RW
  | .writeHeader s => rw.writeHeaderCleared s
  | .write b => (rw.Write b).1
  | .setHeader k v => { rw with sink := rw.sink.setHdr k v }

/-- Runs a handler program against the wrapped writer, left to right. -/
def RW.runOps (rw : RW) : Handler → RW
  | [] => rw
  | op :: ops => (rw.runOp op).runOps ops

/-- Embeds `responseWriter.handleInterception` (response_writer.go lines
75-92): clear both optional handlers (reentrancy guard), delete every header
currently set on the underlying sink, invoke the substitute handler
synchronously with this same writer and the original request, then set
`ignoreWrites` so the matcher's continuing default-response writes are
discarded. -/
def RW.handleInterception (rw : RW) (handler : Handler) : RW :=
  let rw1 := { rw with notFound := none, methodNotAllowed := none }
  let rw2 := { rw1 with sink := { rw1.sink with headers := [] } }
  let rw3 := rw2.runOps handler
  { rw3 with ignoreWrites := true }

/-- Embeds `responseWriter.WriteHeader` (response_writer.go lines 53-73):
no-op when already written; on the very first attempt (`status` still 0),
a 404 with a notFound handler or a 405 with a methodNotAllowed handler is
intercepted instead of committed; otherwise the commit is recorded and
forwarded. -/
def RW.WriteHeader (rw : RW) (status : Nat) : RW :=
  if rw.written then rw
  else if rw.status = 0 then
    match status, rw.notFound, rw.methodNotAllowed with
    | 404, some h, _ => rw.handleInterception h
    | 405, _, some h => rw.handleInterception h
    | _, _, _ => rw.commitTo status
  else rw.commitTo status

/-- Embeds `wrapResponseWriter` (response_writer.go lines 137-144): fresh
tracking state over the given sink, carrying the Mux's optional handlers. -/
def wrapResponseWriter (s : Sink) (notFound methodNotAllowed : Option Handler) : RW :=
  { sink := s, status := 0, size := 0, written := false,
    notFound := notFound, methodNotAllowed := methodNotAllowed,
    ignoreWrites := false }

/-- Embeds `Mux.wrapWriter` (chain.go lines 149-151): the serving Mux's own
handlers — and only those — are given to the wrapper. -/
def MuxM.wrapWriter (m : MuxM) (s : Sink) : RW :=
  wrapResponseWriter s m.notFound m.methodNotAllowed

/-! ### Capability delegation (response_writer.go lines 114-134)

The sink's optional transport capabilities are modelled per the external
collaborator contract: a capability is present or absent, and using a present
one has an observable effect.  `http.ResponseController` (used by `Flush` and
`Hijack`) invokes the capability when the sink supports it and otherwise
returns `http.ErrNotSupported` ("feature not supported"); `Push` performs a
direct interface assertion.  Connections, buffered readers and push options
are opaque tokens (`Nat`). -/

/-- The typed "feature not supported" error value `http.ErrNotSupported`. -/
inductive HErr where
  | errNotSupported
  deriving DecidableEq, Repr

/-- A raw sink together with its optional capabilities: whether it implements
`http.Flusher` (plus a count of flushes received), what `Hijack` would return
if it implements `http.Hijacker` (a connection and a buffered read-writer),
and whether it implements `http.Pusher` (plus the pushes received). -/
structure CapSink where
  flushable : Bool
  flushCount : Nat
  hijackable : Option (Nat × Nat)
  pushable : Bool
  pushes : List (String × Nat)
  deriving DecidableEq, Repr

/-- Embeds `responseWriter.Flush` (response_writer.go lines 116-118):
`http.NewResponseController(rw.ResponseWriter).Flush()` flushes when the sink
supports it; the returned error (`ErrNotSupported` when it does not) is
discarded, so an unsupporting sink makes the call a silent no-op. -/
def capFlush (s : CapSink) : CapSink :=
  if s.flushable then { s with flushCount := s.flushCount + 1 } else s

/-- Embeds `responseWriter.Hijack` (response_writer.go lines 122-124):
`http.NewResponseController(rw.ResponseWriter).Hijack()` delegates when the
sink supports hijacking, returning the raw connection and buffered I/O, and
otherwise fails with `http.ErrNotSupported`. -/
def capHijack (s : CapSink) : CapSink × Except HErr (Nat × Nat) :=
  match s.hijackable with
  | some c => (s, Except.ok c)
  | none => (s, Except.error HErr.errNotSupported)

/-- Embeds `responseWriter.Push` (response_writer.go lines 128-134): asserts
`rw.ResponseWriter.(http.Pusher)`; returns `http.ErrNotSupported` when the
assertion fails, otherwise delegates with the same target and options. -/
def capPush (s : CapSink) (target : String) (opts : Nat) : CapSink × Option HErr :=
  if s.pushable then ({ s with pushes := s.pushes ++ [(target, opts)] }, none)
  else (s, some HErr.errNotSupported)

/-! ### Helper lemmas -/

/-- On a writer whose interception handlers are both cleared — the state every
call from inside an interception sees — the full `WriteHeader` agrees with
`writeHeaderCleared`, which is why handler programs run with
`writeHeaderCleared` in `runOp`. -/
theorem WriteHeader_cleared (rw : RW) (s : Nat)
    (hnf : rw.notFound = none) (hmna : rw.methodNotAllowed = none) :
    rw.WriteHeader s = rw.writeHeaderCleared s := by
  unfold RW.WriteHeader RW.writeHeaderCleared
  by_cases hw : rw.written
  · simp [hw]
  · simp only [hw, if_false, Bool.false_eq_true]
    by_cases hs : rw.status = 0
    · simp only [hs, if_true]
      rw [hnf, hmna]
      split <;> simp_all
    · simp [hs]

/-- Running a handler program never reinstalls interception handlers: the
writer-API operations touch only status, size, written-state and the sink. -/
theorem runOps_handlers (ops : Handler) : ∀ rw : RW,
    ((rw.runOps ops).notFound = rw.notFound ∧
     (rw.runOps ops).methodNotAllowed = rw.methodNotAllowed) := by
  induction ops with
  | nil => intro rw; exact ⟨rfl, rfl⟩
  | cons op ops ih =>
    intro rw
    have h := ih (rw.runOp op)
    have hop : (rw.runOp op).notFound = rw.notFound ∧
        (rw.runOp op).methodNotAllowed = rw.methodNotAllowed := by
      cases op with
      | writeHeader s =>
        unfold RW.runOp RW.writeHeaderCleared RW.commitTo
        by_cases hw : rw.written <;> simp [hw]
      | write b =>
        unfold RW.runOp RW.Write
        by_cases hig : rw.ignoreWrites
        · simp [hig]
        · by_cases hw : rw.written <;> simp [hig, hw]
      | setHeader k v => exact ⟨rfl, rfl⟩
    simp only [RW.runOps] at *
    exact ⟨h.1.trans hop.1, h.2.trans hop.2⟩

/-- Composing instrumented middleware yields the before-events in registration
order, then the leaf trace, then the after-events in reverse order. -/
theorem wrap_instr (ids : List Nat) (h : TraceH) :
    wrap (ids.map instr) h =
      ids.map Ev.before ++ h ++ (ids.reverse.map Ev.after) := by
  induction ids with
  | nil => simp [wrap]
  | cons i ids ih => simp [wrap, instr, ih, List.append_assoc]

/-- `findIdx?` locates the separator right after a separator-free verb token. -/
theorem findIdx?_slash (verb rest : List Char) (hv : '/' ∉ verb) :
    List.findIdx? (fun c => c = '/') (verb ++ '/' :: rest) = some verb.length := by
  induction verb with
  | nil => simp [List.findIdx?_cons]
  | cons c cs ih =>
    have hc : c ≠ '/' := fun h => hv (h ▸ List.mem_cons_self c cs)
    have hcs : '/' ∉ cs := fun h => hv (List.mem_cons_of_mem c h)
    rw [List.cons_append, List.findIdx?_cons]
    simp [hc, ih hcs]

/-- If the pattern is a verb token (containing no path separator) followed by a
path, the path component starts right after the verb. -/
theorem pathStart_append (verb rest : List Char) (hv : '/' ∉ verb) :
    pathStart (verb ++ '/' :: rest) = verb.length := by
  unfold pathStart
  rw [findIdx?_slash verb rest hv]

/-- Claim C2: for middleware registered in order m1..mn on a scope and a leaf
handler h registered on that scope, composition wraps the handler iterating
the chain from last to first, so the observed call sequence is m1-before ...
mn-before, h, mn-after ... m1-after, for every chain length including 0 and 1. -/
theorem C2_middleware_ordering (ids : List Nat) (h : TraceH) :
    (MuxM.new.use ids).middlewares = ids ∧
    wrap ((MuxM.new.use ids).middlewares.map instr) h =
      ids.map Ev.before ++ h ++ (ids.reverse.map Ev.after) := by
  have hm : (MuxM.new.use ids).middlewares = ids := by
    simp [MuxM.new, MuxM.use]
  exact ⟨hm, by rw [hm]; exact wrap_instr ids h⟩

/-- Claim C7: Group and Route derive a child whose middleware list is a copy of
the parent's at derivation time; middleware appended to the parent afterwards
never appears in the already-derived child's chain, middleware appended to the
child never appears in the parent's chain, and middleware present on the
parent before derivation is included in every route registered through the
child. -/
theorem C7_scope_isolation (m : MuxM) (p : String) (post childAdd : List Nat)
    (x y : Nat) (r : Router) (pat : String) (hid : Nat)
    (_hx : x ∈ post) (hxm : x ∉ m.middlewares) (hxc : x ∉ childAdd)
    (_hy : y ∈ childAdd) (hym : y ∉ m.middlewares) (hyp : y ∉ post) :
    m.groupChild.middlewares = m.middlewares ∧
    (m.routeChild p).middlewares = m.middlewares ∧
    ((m.use post).groupChild).middlewares = m.middlewares ++ post ∧
    (m.use post).middlewares = m.middlewares ++ post ∧
    (m.groupChild.use childAdd).middlewares = m.middlewares ++ childAdd ∧
    x ∉ m.groupChild.middlewares ∧
    x ∉ (m.groupChild.use childAdd).middlewares ∧
    y ∉ (m.use post).middlewares ∧
    (m.groupChild.use childAdd).handle r pat hid =
      r ++ [(pfxPattern m.pfx pat, m.middlewares ++ childAdd, hid)] ∧
    m.middlewares ⊆ (m.groupChild.use childAdd).middlewares := by
  refine ⟨rfl, rfl, rfl, rfl, rfl, hxm, ?_, ?_, rfl, ?_⟩
  · simp [MuxM.groupChild, MuxM.use, List.mem_append]
    exact ⟨hxm, hxc⟩
  · simp [MuxM.use, List.mem_append]
    exact ⟨hym, hyp⟩
  · simp only [MuxM.groupChild, MuxM.use]
    exact List.subset_append_left _ _

/-- Witness for C7 at a concrete scope and concrete middleware ids. -/
theorem C7_scope_isolation_witness :
    ((3 : Nat) ∈ [3] ∧ 3 ∉ (MuxM.new.use [1, 2]).middlewares ∧ (3 : Nat) ∉ [4] ∧
     (4 : Nat) ∈ [4] ∧ 4 ∉ (MuxM.new.use [1, 2]).middlewares ∧ (4 : Nat) ∉ [3]) ∧
    ((MuxM.new.use [1, 2]).groupChild.middlewares = (MuxM.new.use [1, 2]).middlewares ∧
     ((MuxM.new.use [1, 2]).routeChild "/p").middlewares = (MuxM.new.use [1, 2]).middlewares ∧
     (((MuxM.new.use [1, 2]).use [3]).groupChild).middlewares =
       (MuxM.new.use [1, 2]).middlewares ++ [3] ∧
     ((MuxM.new.use [1, 2]).use [3]).middlewares = (MuxM.new.use [1, 2]).middlewares ++ [3] ∧
     ((MuxM.new.use [1, 2]).groupChild.use [4]).middlewares =
       (MuxM.new.use [1, 2]).middlewares ++ [4] ∧
     3 ∉ (MuxM.new.use [1, 2]).groupChild.middlewares ∧
     3 ∉ ((MuxM.new.use [1, 2]).groupChild.use [4]).middlewares ∧
     4 ∉ ((MuxM.new.use [1, 2]).use [3]).middlewares ∧
     ((MuxM.new.use [1, 2]).groupChild.use [4]).handle [] "/u" 0 =
       [] ++ [(pfxPattern (MuxM.new.use [1, 2]).pfx "/u",
               (MuxM.new.use [1, 2]).middlewares ++ [4], 0)] ∧
     (MuxM.new.use [1, 2]).middlewares ⊆
       ((MuxM.new.use [1, 2]).groupChild.use [4]).middlewares) :=
  ⟨⟨by decide, by decide, by decide, by decide, by decide, by decide⟩,
   C7_scope_isolation (MuxM.new.use [1, 2]) "/p" [3] [4] 3 4 [] "/u" 0
     (by decide) (by decide) (by decide) (by decide) (by decide) (by decide)⟩

/-- Claim C8: with a non-empty scope prefix, the prefix is prepended to the
pattern's path component only (the path component starting at the first `/`),
leaving any verb token untouched; nested Route derivations compose prefixes by
string concatenation, so handle "GET /users" inside route "/v1" inside route
"/api" registers at "GET /api/v1/users", and a verb-less pattern "/health"
still has only its path prefixed. -/
theorem C8_pfx_composition (pfx : String) (verb rest : List Char)
    (hv : '/' ∉ verb) (m : MuxM) (p q : String) (hid : Nat) :
    pfxPattern pfx ((verb ++ '/' :: rest).asString) =
      (verb ++ pfx.toList ++ '/' :: rest).asString ∧
    ((m.routeChild p).routeChild q).pfx = m.pfx ++ p ++ q ∧
    ((MuxM.new.routeChild "/api").routeChild "/v1").handle [] "GET /users" hid =
      [("GET /api/v1/users", [], hid)] ∧
    pfxPattern "/api" "/health" = "/api/health" := by
  refine ⟨?_, rfl, by rfl, by rfl⟩
  by_cases hpfx : pfx = ""
  · subst hpfx
    simp [pfxPattern]
  · unfold pfxPattern
    rw [if_neg hpfx]
    show ((((verb ++ '/' :: rest).asString).toList).take
        (pathStart (((verb ++ '/' :: rest).asString).toList)) ++ pfx.toList ++
        (((verb ++ '/' :: rest).asString).toList).drop
        (pathStart (((verb ++ '/' :: rest).asString).toList))).asString = _
    have hrt : ((verb ++ '/' :: rest).asString).toList = verb ++ '/' :: rest := rfl
    rw [hrt, pathStart_append verb rest hv, List.take_left, List.drop_left]

/-- Witness for C8 at the spec's own example: verb token "GET ", prefix
"/api/v1". -/
theorem C8_pfx_composition_witness :
    ('/' ∉ "GET ".toList) ∧
    (pfxPattern "/api/v1" (("GET ".toList ++ '/' :: "users".toList).asString) =
      ("GET ".toList ++ "/api/v1".toList ++ '/' :: "users".toList).asString ∧
     ((MuxM.new.routeChild "/a").routeChild "/b").pfx = MuxM.new.pfx ++ "/a" ++ "/b" ∧
     ((MuxM.new.routeChild "/api").routeChild "/v1").handle [] "GET /users" 0 =
       [("GET /api/v1/users", [], 0)] ∧
     pfxPattern "/api" "/health" = "/api/health") :=
  ⟨by decide,
   C8_pfx_composition "/api/v1" "GET ".toList "users".toList (by decide)
     MuxM.new "/a" "/b" 0⟩

/-- Claim C9: Hijack on a wrapper over a sink that cannot hijack fails with the
"feature not supported" error and otherwise delegates, returning the raw
connection and buffered I/O; Push returns the typed http.ErrNotSupported when
the sink is not a Pusher and otherwise delegates with the same target and
options unchanged; Flush is a silent no-op when the sink cannot flush; all
three are total on an unsupporting sink. -/
theorem C9_capability_delegation (f : Bool) (fc : Nat) (hj : Option (Nat × Nat))
    (pb : Bool) (ps : List (String × Nat)) (c : Nat × Nat)
    (target : String) (opts : Nat) :
    capHijack ⟨f, fc, none, pb, ps⟩ =
      (⟨f, fc, none, pb, ps⟩, Except.error HErr.errNotSupported) ∧
    capHijack ⟨f, fc, some c, pb, ps⟩ = (⟨f, fc, some c, pb, ps⟩, Except.ok c) ∧
    capPush ⟨f, fc, hj, false, ps⟩ target opts =
      (⟨f, fc, hj, false, ps⟩, some HErr.errNotSupported) ∧
    capPush ⟨f, fc, hj, true, ps⟩ target opts =
      (⟨f, fc, hj, true, ps ++ [(target, opts)]⟩, none) ∧
    capFlush ⟨false, fc, hj, pb, ps⟩ = ⟨false, fc, hj, pb, ps⟩ := by
  refine ⟨rfl, rfl, ?_, ?_, ?_⟩ <;> simp [capPush, capFlush]

/-- Claim C10: deriving a child via Group or Route copies only the router
reference, the middleware list and the prefix; the child's notFound and
methodNotAllowed handlers are left unset even when the parent has custom
handlers installed, and the writer wrapper built by the serving Mux carries
exactly that Mux's own handlers. -/
theorem C10_child_handlers_unset (m : MuxM) (p : String) (sk : Sink)
    (nfh mnah : Handler) :
    ((m.withNotFound nfh).withMethodNotAllowed mnah).notFound = some nfh ∧
    ((m.withNotFound nfh).withMethodNotAllowed mnah).methodNotAllowed = some mnah ∧
    ((m.withNotFound nfh).withMethodNotAllowed mnah).groupChild.notFound = none ∧
    ((m.withNotFound nfh).withMethodNotAllowed mnah).groupChild.methodNotAllowed = none ∧
    (((m.withNotFound nfh).withMethodNotAllowed mnah).routeChild p).notFound = none ∧
    (((m.withNotFound nfh).withMethodNotAllowed mnah).routeChild p).methodNotAllowed = none ∧
    ((m.withNotFound nfh).withMethodNotAllowed mnah).groupChild.middlewares = m.middlewares ∧
    ((m.withNotFound nfh).withMethodNotAllowed mnah).groupChild.pfx = m.pfx ∧
    (((m.withNotFound nfh).withMethodNotAllowed mnah).routeChild p).middlewares = m.middlewares ∧
    (((m.withNotFound nfh).withMethodNotAllowed mnah).routeChild p).pfx = m.pfx ++ p ∧
    ((m.withNotFound nfh).withMethodNotAllowed mnah).wrapWriter sk =
      wrapResponseWriter sk (some nfh) (some mnah) ∧
    ((m.withNotFound nfh).withMethodNotAllowed mnah).groupChild.wrapWriter sk =
      wrapResponseWriter sk none none ∧
    (((m.withNotFound nfh).withMethodNotAllowed mnah).routeChild p).wrapWriter sk =
      wrapResponseWriter sk none none :=
  ⟨rfl, rfl, rfl, rfl, rfl, rfl, rfl, rfl, rfl, rfl, rfl, rfl, rfl⟩

/-- On a fresh-enough writer whose status admits no interception, `WriteHeader`
is the plain recorded-and-forwarded commit. -/
theorem WriteHeader_no_intercept (rw : RW) (s : Nat) (hw : rw.written = false)
    (h404 : s = 404 → rw.notFound = none)
    (h405 : s = 405 → rw.methodNotAllowed = none) :
    rw.WriteHeader s = rw.commitTo s := by
  unfold RW.WriteHeader
  rw [hw]
  simp only [Bool.false_eq_true, if_false]
  by_cases hs : rw.status = 0
  · simp only [hs, if_true]
    split <;> first | rfl | simp_all
  · simp [hs]

/-- Projection form of `runOps_handlers` for the notFound handler. -/
theorem runOps_notFound (ops : Handler) (rw : RW) :
    (rw.runOps ops).notFound = rw.notFound :=
  (runOps_handlers ops rw).1

/-- Projection form of `runOps_handlers` for the methodNotAllowed handler. -/
theorem runOps_mna (ops : Handler) (rw : RW) :
    (rw.runOps ops).methodNotAllowed = rw.methodNotAllowed :=
  (runOps_handlers ops rw).2

/-- An interception leaves both optional handlers cleared: they are nulled
before the substitute handler runs and nothing reinstalls them. -/
theorem handleInterception_clears (rw : RW) (h : Handler) :
    (rw.handleInterception h).notFound = none ∧
    (rw.handleInterception h).methodNotAllowed = none := by
  constructor <;> simp [RW.handleInterception, runOps_notFound, runOps_mna]

/-- Writes on a writer whose suppression flag is set leave the state unchanged. -/
theorem writeAll_ignore (bs : List (List Nat)) : ∀ rw : RW,
    rw.ignoreWrites = true → rw.writeAll bs = rw := by
  induction bs with
  | nil => intro rw _; rfl
  | cons b bs ih =>
    intro rw hig
    have h1 : (rw.Write b).1 = rw := by
      unfold RW.Write
      simp [hig]
    show ((rw.Write b).1).writeAll bs = rw
    rw [h1]
    exact ih rw hig

/-- Claim C1: with a not-found substitute handler registered and
WriteHeader(404) the first commit attempt, the wrapper does not forward the
404: every pre-set header on the sink is removed, the substitute handler runs
synchronously on the same wrapped writer, and the effective status, commits,
body and headers are exactly those the substitute handler writes from the
cleaned state; likewise for 405 with a method-not-allowed handler. -/
theorem C1_interception_end_to_end (hdrs : List (String × String))
    (cm bd : List Nat) (h h2 : Handler) (nf mna : Option Handler)
    (out : List Nat) :
    (wrapResponseWriter ⟨hdrs, cm, bd⟩ (some h) mna).WriteHeader 404 =
      { (wrapResponseWriter ⟨[], cm, bd⟩ none none).runOps h with
          ignoreWrites := true } ∧
    (wrapResponseWriter ⟨hdrs, cm, bd⟩ nf (some h2)).WriteHeader 405 =
      { (wrapResponseWriter ⟨[], cm, bd⟩ none none).runOps h2 with
          ignoreWrites := true } ∧
    ((wrapResponseWriter ⟨hdrs, cm, bd⟩
        (some [HOp.writeHeader 410, HOp.write out]) mna).WriteHeader 404).Status
      = 410 ∧
    ((wrapResponseWriter ⟨hdrs, cm, bd⟩
        (some [HOp.writeHeader 410, HOp.write out]) mna).WriteHeader 404).sink.commits
      = cm ++ [410] ∧
    ((wrapResponseWriter ⟨hdrs, cm, bd⟩
        (some [HOp.writeHeader 410, HOp.write out]) mna).WriteHeader 404).sink.body
      = bd ++ out ∧
    ((wrapResponseWriter ⟨hdrs, cm, bd⟩
        (some [HOp.writeHeader 410, HOp.write out]) mna).WriteHeader 404).sink.headers
      = [] := by
  refine ⟨rfl, rfl, rfl, rfl, rfl, rfl⟩

/-- Claim C3: interception is one-shot — the procedure clears both handlers
before invoking the substitute handler, so a 404/405 committed by the
substitute handler itself goes through the normal commit path (forwarded to
the sink exactly once) instead of firing a second interception, and the
result degrades gracefully to whatever the substitute handler writes. -/
theorem C3_one_shot (sk : Sink) (mna : Option Handler) (out : List Nat)
    (rw0 : RW) (hset : Handler) (s : Nat)
    (hnf : rw0.notFound = none) (hmna : rw0.methodNotAllowed = none) :
    rw0.WriteHeader s = rw0.writeHeaderCleared s ∧
    ((wrapResponseWriter sk (some hset) mna).handleInterception hset).notFound
      = none ∧
    ((wrapResponseWriter sk (some hset) mna).handleInterception
        hset).methodNotAllowed = none ∧
    ((wrapResponseWriter sk (some [HOp.writeHeader 404, HOp.write out])
        mna).WriteHeader 404).sink.commits = sk.commits ++ [404] ∧
    ((wrapResponseWriter sk (some [HOp.writeHeader 404, HOp.write out])
        mna).WriteHeader 404).sink.body = sk.body ++ out ∧
    ((wrapResponseWriter sk (some [HOp.writeHeader 404, HOp.write out])
        mna).WriteHeader 404).status = 404 ∧
    ((wrapResponseWriter sk (some [HOp.writeHeader 404, HOp.write out])
        mna).WriteHeader 404).ignoreWrites = true ∧
    ((wrapResponseWriter sk (some [HOp.writeHeader 404, HOp.write out])
        mna).WriteHeader 404).notFound = none ∧
    ((wrapResponseWriter sk (some [HOp.writeHeader 404, HOp.write out])
        mna).WriteHeader 404).methodNotAllowed = none := by
  refine ⟨WriteHeader_cleared rw0 s hnf hmna,
    (handleInterception_clears _ hset).1,
    (handleInterception_clears _ hset).2,
    rfl, rfl, rfl, rfl, rfl, rfl⟩

/-- Witness for C3 on a concrete sink, substitute handler and cleared writer. -/
theorem C3_one_shot_witness :
    ((wrapResponseWriter ⟨[], [], []⟩ none none).notFound = none ∧
     (wrapResponseWriter ⟨[], [], []⟩ none none).methodNotAllowed = none) ∧
    ((wrapResponseWriter ⟨[], [], []⟩ none none).WriteHeader 500 =
       (wrapResponseWriter ⟨[], [], []⟩ none none).writeHeaderCleared 500 ∧
     ((wrapResponseWriter ⟨[("K", "v")], [9], [1]⟩ (some []) none).handleInterception
        []).notFound = none ∧
     ((wrapResponseWriter ⟨[("K", "v")], [9], [1]⟩ (some []) none).handleInterception
        []).methodNotAllowed = none ∧
     ((wrapResponseWriter ⟨[("K", "v")], [9], [1]⟩
         (some [HOp.writeHeader 404, HOp.write [5]]) none).WriteHeader
        404).sink.commits = Sink.commits ⟨[("K", "v")], [9], [1]⟩ ++ [404] ∧
     ((wrapResponseWriter ⟨[("K", "v")], [9], [1]⟩
         (some [HOp.writeHeader 404, HOp.write [5]]) none).WriteHeader
        404).sink.body = Sink.body ⟨[("K", "v")], [9], [1]⟩ ++ [5] ∧
     ((wrapResponseWriter ⟨[("K", "v")], [9], [1]⟩
         (some [HOp.writeHeader 404, HOp.write [5]]) none).WriteHeader
        404).status = 404 ∧
     ((wrapResponseWriter ⟨[("K", "v")], [9], [1]⟩
         (some [HOp.writeHeader 404, HOp.write [5]]) none).WriteHeader
        404).ignoreWrites = true ∧
     ((wrapResponseWriter ⟨[("K", "v")], [9], [1]⟩
         (some [HOp.writeHeader 404, HOp.write [5]]) none).WriteHeader
        404).notFound = none ∧
     ((wrapResponseWriter ⟨[("K", "v")], [9], [1]⟩
         (some [HOp.writeHeader 404, HOp.write [5]]) none).WriteHeader
        404).methodNotAllowed = none) :=
  ⟨⟨rfl, rfl⟩,
   C3_one_shot ⟨[("K", "v")], [9], [1]⟩ none [5]
     (wrapResponseWriter ⟨[], [], []⟩ none none) [] 500 rfl rfl⟩

/-- Claim C4: once an interception has completed, the suppression flag is set
and every subsequent Write call reports all bytes written with no error while
changing nothing — not the underlying sink, nor size, status or written. -/
theorem C4_write_suppression (rw : RW) (h : Handler) (b : List Nat)
    (bs : List (List Nat)) :
    (rw.handleInterception h).ignoreWrites = true ∧
    (rw.handleInterception h).Write b =
      (rw.handleInterception h, (b.length, none)) ∧
    (rw.handleInterception h).writeAll bs = rw.handleInterception h := by
  have hig : (rw.handleInterception h).ignoreWrites = true := rfl
  refine ⟨hig, ?_, writeAll_ignore bs _ hig⟩
  unfold RW.Write
  simp [hig]

/-- Claim C5: header commit is idempotent with first-commit-wins: when no
interception applies to the first commit, a second WriteHeader with a
different status is a silent no-op; the caller-visible status and the single
status forwarded to the sink are the first value. -/
theorem C5_idempotent_commit (sk : Sink) (nf mna : Option Handler)
    (s1 s2 : Nat) (h1 : s1 ≠ 0)
    (h404 : s1 = 404 → nf = none) (h405 : s1 = 405 → mna = none) :
    ((wrapResponseWriter sk nf mna).WriteHeader s1).WriteHeader s2 =
      (wrapResponseWriter sk nf mna).WriteHeader s1 ∧
    ((wrapResponseWriter sk nf mna).WriteHeader s1).Status = s1 ∧
    ((wrapResponseWriter sk nf mna).WriteHeader s1).status = s1 ∧
    ((wrapResponseWriter sk nf mna).WriteHeader s1).sink.commits =
      sk.commits ++ [s1] ∧
    ((wrapResponseWriter sk nf mna).WriteHeader s1).Written = true := by
  have hcommit := WriteHeader_no_intercept (wrapResponseWriter sk nf mna) s1
    rfl (fun hh => h404 hh) (fun hh => h405 hh)
  rw [hcommit]
  refine ⟨?_, ?_, rfl, rfl, rfl⟩
  · unfold RW.WriteHeader
    simp [RW.commitTo]
  · unfold RW.Status RW.commitTo
    simp [h1]

/-- Witness for C5 with first commit 500 and second commit 200. -/
theorem C5_idempotent_commit_witness :
    ((500 : Nat) ≠ 0) ∧
    (((wrapResponseWriter ⟨[], [], []⟩ none none).WriteHeader 500).WriteHeader 200 =
       (wrapResponseWriter ⟨[], [], []⟩ none none).WriteHeader 500 ∧
     ((wrapResponseWriter ⟨[], [], []⟩ none none).WriteHeader 500).Status = 500 ∧
     ((wrapResponseWriter ⟨[], [], []⟩ none none).WriteHeader 500).status = 500 ∧
     ((wrapResponseWriter ⟨[], [], []⟩ none none).WriteHeader 500).sink.commits =
       Sink.commits ⟨[], [], []⟩ ++ [500] ∧
     ((wrapResponseWriter ⟨[], [], []⟩ none none).WriteHeader 500).Written = true) :=
  ⟨by decide,
   C5_idempotent_commit ⟨[], [], []⟩ none none 500 200 (by decide)
     (fun h => by cases h) (fun h => by cases h)⟩

/-- Claim C6: a fresh non-suppressing writer reports Status 200, Written false
and Size 0; a Write with no prior commit marks the response written with the
default success status 200 and returns the full byte count with no error; and
successive writes of payloads a then b accumulate Size a+b, matching the
bytes the sink actually received. -/
theorem C6_status_default_size (sk : Sink) (nf mna : Option Handler)
    (a b : List Nat) :
    (wrapResponseWriter sk nf mna).Status = 200 ∧
    (wrapResponseWriter sk nf mna).Written = false ∧
    (wrapResponseWriter sk nf mna).Size = 0 ∧
    (((wrapResponseWriter sk nf mna).Write a).1).Written = true ∧
    (((wrapResponseWriter sk nf mna).Write a).1).Status = 200 ∧
    ((wrapResponseWriter sk nf mna).Write a).2 = (a.length, none) ∧
    ((((wrapResponseWriter sk nf mna).Write a).1).Write b).1.Size =
      a.length + b.length ∧
    ((((wrapResponseWriter sk nf mna).Write a).1).Write b).1.sink.body =
      sk.body ++ (a ++ b) := by
  refine ⟨rfl, rfl, rfl, rfl, rfl, rfl, ?_, ?_⟩ <;>
    simp [wrapResponseWriter, RW.Write, RW.Size, List.append_assoc]
